import Mathlib

/-!
Verification of the realtime-service repository (NestJS + Socket.IO) against its
natural-language specification.  The development shallowly embeds the relevant
TypeScript sources:

* `src/src/auth/ws-jwt.guard.ts`      — token extraction and the WebSocket guard;
* `src/src/events/events.gateway.ts`  — room validation/ACL, authenticate handler,
                                        broadcast methods and the Redis bridge receiver;
* `src/src/broadcast/broadcast.controller.ts` — webhook token validation (both
                                        controller variants found in the file);
* the notifications service (inbox over a Redis sorted set plus unread counter).

JavaScript-specific behaviour that the control flow depends on (truthiness of
strings, `parseInt`, `decodeURIComponent`, cookie parsing) is embedded explicitly.
Cryptographic primitives (JWT verification, HMAC-SHA-256) are taken as parameters
of the model: the guard logic only branches on their results.
-/

namespace Realtime

/-! ## JavaScript primitives

String operations are implemented by structural recursion over the character
list so that every definition evaluates by kernel reduction. -/

/-- Truthiness of an optional string: `undefined` and `""` are falsy. -/
def truthy : Option String → Bool
  | none => false
  | some s => s ≠ ""

/-- JavaScript `a || b` on optional strings. -/
def jsOr (a b : Option String) : Option String :=
  if truthy a then a else b

/-- Split a character list on a separator character
(JavaScript `String.prototype.split` with a one-character separator). -/
def splitChar (sep : Char) : List Char → List (List Char)
  | [] => [[]]
  | c :: rest =>
    let r := splitChar sep rest
    if c = sep then [] :: r
    else
      match r with
      | [] => [[c]]
      | g :: gs => (c :: g) :: gs

/-- JavaScript `s.split(sep)` for a one-character separator. -/
def jsSplit (s : String) (sep : Char) : List String :=
  (splitChar sep s.data).map List.asString

/-- Join strings with a one-character separator (`Array.prototype.join`). -/
def joinWith (sep : Char) : List String → String
  | [] => ""
  | [x] => x
  | x :: y :: rest => x ++ String.mk [sep] ++ joinWith sep (y :: rest)

/-- JavaScript whitespace relevant to `String.prototype.trim` in headers. -/
def isJsWhitespace (c : Char) : Bool :=
  c = ' ' ∨ c = '\t' ∨ c = '\n' ∨ c = '\r'

/-- JavaScript `s.trim()`. -/
def jsTrim (s : String) : String :=
  (((s.data.dropWhile isJsWhitespace).reverse.dropWhile isJsWhitespace).reverse).asString

/-- JavaScript `s.startsWith(p)`. -/
def jsStartsWith (s p : String) : Bool :=
  p.data.isPrefixOf s.data

/-- JavaScript `s.toLowerCase()` on the ASCII range. -/
def jsToLower (s : String) : String :=
  (s.data.map Char.toLower).asString

/-- Value of a hexadecimal digit, if the character is one. -/
def hexDigitVal (c : Char) : Option Nat :=
  if '0' ≤ c ∧ c ≤ '9' then some (c.toNat - '0'.toNat)
  else if 'a' ≤ c ∧ c ≤ 'f' then some (c.toNat - 'a'.toNat + 10)
  else if 'A' ≤ c ∧ c ≤ 'F' then some (c.toNat - 'A'.toNat + 10)
  else none

/-- Percent-decoding of a character list.  `none` models `decodeURIComponent`
throwing `URIError` on a malformed escape.  The model covers the ASCII fragment
(escapes `%00`–`%7F`); multi-byte UTF-8 escapes are outside the fragment the
claims exercise and are mapped to `none` as well. -/
def percentDecode : List Char → Option (List Char)
  | [] => some []
  | '%' :: a :: b :: rest =>
    match hexDigitVal a, hexDigitVal b with
    | some ha, some hb =>
      if 16 * ha + hb < 128 then
        (percentDecode rest).map (fun l => Char.ofNat (16 * ha + hb) :: l)
      else none
    | _, _ => none
  | '%' :: _ :: [] => none
  | '%' :: [] => none
  | c :: rest => (percentDecode rest).map (fun l => c :: l)

/-- Model of `decodeURIComponent`, restricted to the ASCII fragment (see `percentDecode`). -/
def decodeUriComponent (s : String) : Option String :=
  (percentDecode s.data).map List.asString

/-- JavaScript `parseInt` in base 10 restricted to what the gateway feeds it
(no surrounding whitespace is produced by the room-name splitting): an optional
sign followed by leading decimal digits; `none` models `NaN`. -/
def jsParseInt (s : String) : Option Int :=
  let core : List Char → Option Nat := fun cs =>
    let digits := cs.takeWhile (fun c => '0' ≤ c ∧ c ≤ '9')
    if digits.isEmpty then none
    else some (digits.foldl (fun acc c => acc * 10 + (c.toNat - '0'.toNat)) 0)
  match s.data with
  | '-' :: rest => (core rest).map (fun n => -(n : Int))
  | '+' :: rest => (core rest).map (fun n => (n : Int))
  | cs => (core cs).map (fun n => (n : Int))

/-! ## Token verifier model (`src/src/auth/ws-jwt.guard.ts`) -/

/-- The `{userId, login, role}` record the guard stores in `client.data.user`. -/
structure UserInfo where
  userId : Int
  login : Option String
  role : String
  deriving DecidableEq, Repr

/-- The parts of the Socket.IO handshake the guard inspects. -/
structure Handshake where
  cookieHeader : Option String
  authToken : Option String
  queryToken : Option String
  authorizationHeader : Option String
  deriving DecidableEq, Repr

/-- Guard configuration: the resolved cookie secret
(`COOKIE_SECRET || JWT_SECRET`, `none` when neither is set) and the
HMAC-SHA-256/base64url signature function for that secret, abstracted. -/
structure GuardConfig where
  cookieSecret : Option String
  hmacSha256Base64Url : String → String

/-- One `key=value` cookie pair: trim, split on `=`, key is the first part and
the value is the remaining parts rejoined (as in the source's reduce). -/
def parseCookiePair (s : String) : String × String :=
  let parts := jsSplit (jsTrim s) '='
  (parts.headD "", joinWith '=' (parts.drop 1))

/-- Parse a `Cookie` header into pairs, in order of appearance. -/
def parseCookies (header : String) : List (String × String) :=
  (jsSplit header ';').map parseCookiePair

/-- Lookup in the cookie record built by the source's reduce: a later pair with
the same key overwrites an earlier one. -/
def cookieLookup (pairs : List (String × String)) (k : String) : Option String :=
  (pairs.reverse.find? (fun p => p.1 = k)).map (fun p => p.2)

/-- Model of `verifyCookieSignature`: with no configured secret the check is skipped
(returns `true`); otherwise the signature must equal the HMAC of the value. -/
def verifyCookieSignature (cfg : GuardConfig) (value signature : String) : Bool :=
  match cfg.cookieSecret with
  | none => true
  | some _ => signature = cfg.hmacSha256Base64Url value

/-- The signed-cookie stage of `extractTokenFromCookies`: when the decoded
value has four dot-separated parts, verify the trailing Fastify cookie
signature and strip it (`none` models the hard `return null` on failure);
otherwise pass the value through. -/
def stripCookieSignature (cfg : GuardConfig) (decoded : String) : Option String :=
  if '.' ∈ decoded.data then
    let tokenParts := jsSplit decoded '.'
    if tokenParts.length = 4 then
      let unsignedToken := joinWith '.' (tokenParts.take 3)
      let cookieSignature := tokenParts.getLastD ""
      if verifyCookieSignature cfg unsignedToken cookieSignature then
        some unsignedToken
      else
        none
    else some decoded
  else some decoded

/-- The final JWT-shape stage of `extractTokenFromCookies`: the token must
have exactly three dot-separated parts. -/
def requireJwtShape (tok : String) : Option String :=
  if (jsSplit tok '.').length = 3 then some tok else none

/-- Model of `extractTokenFromCookies`: read `access_token` (or `__Host-access_token`),
URL-decode it, run the signed-cookie stage, then require the JWT shape. -/
def extractTokenFromCookies (cfg : GuardConfig) (cookieHeader : String) : Option String :=
  let pairs := parseCookies cookieHeader
  let accessToken := jsOr (cookieLookup pairs "access_token") (cookieLookup pairs "__Host-access_token")
  if truthy accessToken then
    match decodeUriComponent (accessToken.getD "") with
    | none => none
    | some decoded =>
      match stripCookieSignature cfg decoded with
      | none => none
      | some tok => requireJwtShape tok
  else
    none

/-- The `Authorization` header branch of `extractTokenFromHandshake`:
split on a space, require type `Bearer` and a truthy token part. -/
def bearerTokenCandidate (header : Option String) : Option String :=
  match header with
  | none => none
  | some h =>
    if h = "" then none
    else
      let parts := jsSplit h ' '
      let ty := parts.headD ""
      let tok := (parts.drop 1).headD ""
      if ty = "Bearer" ∧ tok ≠ "" then some tok else none

/-- The non-cookie handshake sources, in source order:
`auth.token`, then the query `token`, then the `Authorization` header. -/
def extractRemainingSources (hs : Handshake) : Option String :=
  if truthy hs.authToken then hs.authToken
  else if truthy hs.queryToken then hs.queryToken
  else bearerTokenCandidate hs.authorizationHeader

/-- Model of `extractTokenFromHandshake`: cookies are tried first (the source marks them
"ПРИОРИТЕТ 1"); when the cookie path yields nothing the remaining sources are
tried. -/
def extractTokenFromHandshake (cfg : GuardConfig) (hs : Handshake) : Option String :=
  match hs.cookieHeader with
  | some cookies =>
    if cookies ≠ "" then
      match extractTokenFromCookies cfg cookies with
      | some t => some t
      | none => extractRemainingSources hs
    else extractRemainingSources hs
  | none => extractRemainingSources hs

/-- Token resolution inside `canActivate`: the `token` field of the message
payload first, then the handshake. -/
def resolveToken (cfg : GuardConfig) (dataToken : Option String) (hs : Handshake) : Option String :=
  if truthy dataToken then dataToken else extractTokenFromHandshake cfg hs

/-- The mutable per-socket data the guard touches (`client.data.user`). -/
structure ClientData where
  user : Option UserInfo
  deriving DecidableEq, Repr

/-- Result of the guard: the request proceeds with possibly-updated client
data, or a `WsException` is thrown with the given message. -/
inductive AuthOutcome
  | accepted (client : ClientData)
  | rejected (message : String)
  deriving DecidableEq, Repr

/-- Model of `canActivate` of `WsJwtGuard`.  `verify` abstracts `jwtService.verify`
composed with the payload-to-user mapping (`none` models a verification
throw). An already-authenticated client is accepted with no token check. -/
def canActivate (cfg : GuardConfig) (verify : String → Option UserInfo)
    (client : ClientData) (dataToken : Option String) (hs : Handshake) : AuthOutcome :=
  match client.user with
  | some _ => .accepted client
  | none =>
    match resolveToken cfg dataToken hs with
    | none => .rejected "Missing authentication token"
    | some t =>
      match verify t with
      | some payload => .accepted { client with user := some payload }
      | none => .rejected "Invalid authentication token"

/-! ## Events gateway (`src/src/events/events.gateway.ts`) and `JoinRoomDto` -/

/-- Character class of the room-name pattern `/^[a-z0-9:_-]+$/i`. -/
def isRoomNameChar (c : Char) : Bool :=
  ('a' ≤ c ∧ c ≤ 'z') ∨ ('A' ≤ c ∧ c ≤ 'Z') ∨ ('0' ≤ c ∧ c ≤ '9') ∨
    c = ':' ∨ c = '_' ∨ c = '-'

/-- The handlers' regex test `/^[a-z0-9:_-]+$/i.test(room)`. -/
def roomNameMatchesPattern (room : String) : Bool :=
  room.length ≥ 1 && room.data.all isRoomNameChar

/-- Validation declared on `JoinRoomDto` (`room.dto.ts`): `@IsString()`,
`@Length(1, 100)` and `@Matches(/^[a-z0-9:_-]+$/i)`, enforced by the global
`ValidationPipe` on the message body of `join-room` and `leave-room`. -/
def joinRoomDtoAccepts (room : String) : Bool :=
  (1 ≤ room.length && room.length ≤ 100) && roomNameMatchesPattern room

/-- Socket.IO room set: `client.join` is idempotent insertion. -/
def joinList (rooms : List String) (r : String) : List String :=
  if r ∈ rooms then rooms else rooms ++ [r]

/-- Socket.IO room set: `client.leave` removes the membership. -/
def leaveList (rooms : List String) (r : String) : List String :=
  rooms.filter (fun x => x ≠ r)

/-- Outcome of a message handler: the acknowledgement `{success:true, room}`
or a thrown `WsException` with its message. -/
inductive WsResult
  | ok (room : String)
  | wsError (message : String)
  deriving DecidableEq, Repr

/-- Whether a handler outcome is a success acknowledgement. -/
def WsResult.isOk : WsResult → Bool
  | .ok _ => true
  | .wsError _ => false

/-- Room access control of `handleJoinRoom`, after the name checks:
`directors` requires role `director`; `operator:<id>`, `master:<id>` and
`user:<id>` require the id to parse and to equal the joiner's `userId` unless
the joiner is a `director`. -/
def handleJoinRoom (user : UserInfo) (rooms : List String) (room : String) :
    List String × WsResult :=
  if joinRoomDtoAccepts room = false then
    (rooms, .wsError "Validation failed")
  else if roomNameMatchesPattern room = false then
    (rooms, .wsError "Invalid room name format")
  else if room = "directors" ∧ user.role ≠ "director" then
    (rooms, .wsError "Access denied to directors room")
  else if jsStartsWith room "operator:" then
    match jsParseInt (((jsSplit room ':').drop 1).headD "") with
    | none => (rooms, .wsError "Invalid operator room format")
    | some targetUserId =>
      if targetUserId ≠ user.userId ∧ user.role ≠ "director" then
        (rooms, .wsError "Access denied to this operator room")
      else
        (joinList rooms room, .ok room)
  else if jsStartsWith room "master:" ∨ jsStartsWith room "user:" then
    match jsParseInt (((jsSplit room ':').drop 1).headD "") with
    | none => (rooms, .wsError "Invalid room format")
    | some targetUserId =>
      if targetUserId ≠ user.userId ∧ user.role ≠ "director" then
        (rooms, .wsError "Access denied to this room")
      else
        (joinList rooms room, .ok room)
  else
    (joinList rooms room, .ok room)

/-- Model of `handleLeaveRoom`: DTO validation, the regex check, then `client.leave`. -/
def handleLeaveRoom (rooms : List String) (room : String) : List String × WsResult :=
  if joinRoomDtoAccepts room = false then
    (rooms, .wsError "Validation failed")
  else if roomNameMatchesPattern room = false then
    (rooms, .wsError "Invalid room name format")
  else
    (leaveList rooms room, .ok room)

/-- Per-socket gateway state: `client.data.user`, the socket's room set, and
the `connectedUsers` entry recorded for this socket id (its `{userId, role}`). -/
structure GatewayClient where
  user : Option UserInfo
  rooms : List String
  registered : Option UserInfo
  deriving DecidableEq, Repr

/-- Model of `handleAuthenticate`, after the guard: record the user in
`connectedUsers`, join the lower-cased role room, and additionally join
`operators` (for `operator`/`callcentre_operator`) or `directors` (for
`director`).  Returns whether `{success:true}` was acknowledged. -/
def handleAuthenticate (c : GatewayClient) : GatewayClient × Bool :=
  match c.user with
  | none => (c, false)
  | some u =>
    let roleRoom := jsToLower u.role
    let rooms1 := joinList c.rooms roleRoom
    let rooms2 :=
      if roleRoom = "operator" then joinList rooms1 "operators"
      else if roleRoom = "callcentre_operator" then joinList rooms1 "operators"
      else if roleRoom = "director" then joinList rooms1 "directors"
      else rooms1
    ({ c with registered := some u, rooms := rooms2 }, true)

/-- A client-to-server message carrying the raw `token` field the guard reads
from the payload before DTO transformation. -/
inductive ClientMessage
  | authenticate (token : Option String)
  | joinRoom (room : String) (token : Option String)
  | leaveRoom (room : String) (token : Option String)
  deriving DecidableEq, Repr

/-- The raw `data?.token` the guard sees for a message. -/
def ClientMessage.dataToken : ClientMessage → Option String
  | .authenticate t => t
  | .joinRoom _ t => t
  | .leaveRoom _ t => t

/-- One inbound message processed by the gateway: the guard runs first
(`@UseGuards(WsJwtGuard)` on all three handlers), then the handler. -/
def gatewayStep (cfg : GuardConfig) (verify : String → Option UserInfo) (hs : Handshake)
    (msg : ClientMessage) (c : GatewayClient) : GatewayClient × WsResult :=
  match canActivate cfg verify { user := c.user } msg.dataToken hs with
  | .rejected m => (c, .wsError m)
  | .accepted cd =>
    let c1 : GatewayClient := { c with user := cd.user }
    match msg with
    | .authenticate _ =>
      let (c2, success) := handleAuthenticate c1
      (c2, if success then .ok "authenticated" else .wsError "No user data")
    | .joinRoom room _ =>
      match c1.user with
      | none => (c1, .wsError "No user data")
      | some u =>
        let (rooms2, res) := handleJoinRoom u c1.rooms room
        ({ c1 with rooms := rooms2 }, res)
    | .leaveRoom room _ =>
      let (rooms2, res) := handleLeaveRoom c1.rooms room
      ({ c1 with rooms := rooms2 }, res)

/-! ## Cross-instance broadcast model

One Socket.IO instance holds connected sockets; the Redis bus (`socket-broadcast`
channel) delivers every published envelope to the subscription callback of every
connected instance, including the publisher itself. -/

/-- A socket connected to one instance. -/
structure InstSocket where
  sid : String
  user : Option UserInfo
  rooms : List String
  deriving DecidableEq, Repr

/-- One service instance: its random `instanceId` and its local sockets. -/
structure ServiceInstance where
  instanceId : String
  sockets : List InstSocket
  deriving DecidableEq, Repr

/-- A JSON envelope on the `socket-broadcast` channel.  Fields absent from the
published object (`room`, `originInstanceId`) decode as `undefined`, modelled
by `none`. -/
structure Envelope where
  event : String
  payload : String
  room : Option String
  originInstanceId : Option String
  deriving DecidableEq, Repr

/-- Local deliveries of `this.server.to(room).emit(...)` to one socket. -/
def emitToRoomCount (room : String) (s : InstSocket) : Nat :=
  if room ∈ s.rooms then 1 else 0

/-- Local deliveries of `this.server.emit(...)` to one socket: every connected
socket receives the event once. -/
def emitToAllCount (_s : InstSocket) : Nat := 1

/-- Envelopes published by `broadcastToRoom`: `{room, event, data}` with no
`originInstanceId`, published only when Redis is connected. -/
def broadcastToRoomPublished (redisConnected : Bool) (room event payload : String) :
    List Envelope :=
  if redisConnected then
    [{ event := event, payload := payload, room := some room, originInstanceId := none }]
  else []

/-- Envelopes published by `broadcastToAll`: the method emits locally and
deliberately publishes nothing to Redis. -/
def broadcastToAllPublished (_redisConnected : Bool) (_event _payload : String) :
    List Envelope := []

/-- Envelopes published by `emitAvitoEvent`:
`{event, data, originInstanceId}` with the instance's own id, no room. -/
def emitAvitoEventPublished (redisConnected : Bool) (instId event payload : String) :
    List Envelope :=
  if redisConnected then
    [{ event := event, payload := payload, room := none, originInstanceId := some instId }]
  else []

/-- The `setupRedisSubscriptions` callback: drop an envelope whose
`originInstanceId` equals the local instance id; otherwise emit to the named
room, or to every socket when no room is named.  Returns the number of copies
delivered to the given local socket. -/
def redisCallbackDeliveries (localInstanceId : String) (e : Envelope) (s : InstSocket) : Nat :=
  if e.originInstanceId = some localInstanceId then 0
  else
    match e.room with
    | some r => emitToRoomCount r s
    | none => emitToAllCount s

/-- Total copies a socket of the publishing instance receives from one
broadcast call: the immediate local emit plus the instance's own subscription
callback processing each published envelope echoed back by the bus. -/
def deliveriesAtOrigin (inst : ServiceInstance) (localCount : InstSocket → Nat)
    (published : List Envelope) (s : InstSocket) : Nat :=
  localCount s + (published.map (fun e => redisCallbackDeliveries inst.instanceId e s)).sum

/-- Total copies a socket of another instance receives from one broadcast call
of the publisher: its subscription callback processing each published envelope. -/
def deliveriesAtPeer (inst : ServiceInstance) (published : List Envelope) (s : InstSocket) : Nat :=
  (published.map (fun e => redisCallbackDeliveries inst.instanceId e s)).sum

/-! ## Webhook ingress (`src/src/broadcast/broadcast.controller.ts`)

The file holds two controller variants.  One validates the body token with
`validateWebhookToken` (constant-time `crypto.timingSafeEqual`, throwing
`UnauthorizedException`, i.e. HTTP 401); the other compares with plain `!==`
and answers the `@HttpCode(HttpStatus.OK)` status 200 with
`{success:false, message:'Invalid token'}`. -/

/-- An HTTP answer of a webhook endpoint, as far as the claims observe it. -/
structure HttpAnswer where
  status : Nat
  success : Bool
  message : String
  deriving DecidableEq, Repr

/-- Model of `secureCompare`: false on empty or length-mismatched inputs, otherwise
`crypto.timingSafeEqual` on the UTF-8 buffers, which decides byte equality. -/
def secureCompare (a b : String) : Bool :=
  if a = "" ∨ b = "" ∨ a.length ≠ b.length then false
  else a = b

/-- Model of `validateWebhookToken` of the hardened controller variant: `some` is the
thrown `UnauthorizedException` (401), `none` lets the request proceed. -/
def validateWebhookToken (webhookTokenEnv : Option String) (token : Option String) :
    Option HttpAnswer :=
  if truthy webhookTokenEnv = false then
    some { status := 401, success := false, message := "Webhook authentication not configured" }
  else if truthy token = false ∨ secureCompare (token.getD "") (webhookTokenEnv.getD "") = false then
    some { status := 401, success := false, message := "Invalid webhook token" }
  else
    none

/-- Model of `broadcastNewCall` of the plain controller variant:
`if (dto.token !== process.env.WEBHOOK_TOKEN) return {success:false, message:'Invalid token'}`
under `@HttpCode(HttpStatus.OK)`; on a match the request proceeds to the
broadcast service (summarised as a success answer). -/
def broadcastNewCallPlain (webhookTokenEnv : Option String) (dtoToken : Option String) :
    HttpAnswer :=
  if dtoToken ≠ webhookTokenEnv then
    { status := 200, success := false, message := "Invalid token" }
  else
    { status := 200, success := true, message := "" }

/-! ## Notification inbox (notifications service)

Per-user state in Redis: the sorted set `ui:notifications:<userId>` (score = ms
epoch of `createdAt`, member = the JSON-encoded notification) and the counter
`ui:notifications:unread:<userId>` (an absent key reads as 0, so the counter is
one integer).  The sorted set is modelled as a list in ascending rank order. -/

/-- The fields of a stored notification the claims observe.  `createdAtMs` is
the ms epoch of `createdAt`, which `createNotification` also uses as the score. -/
structure StoredNotification where
  id : String
  read : Bool
  createdAtMs : Nat
  deriving DecidableEq, Repr

/-- Redis `ZADD`: insert a member at its score rank.  Members carrying a score equal
to existing ones are placed after them; the claims are insensitive to the
order inside a tie group. -/
def zaddInsert (l : List (Nat × StoredNotification)) (score : Nat) (n : StoredNotification) :
    List (Nat × StoredNotification) :=
  match l with
  | [] => [(score, n)]
  | (s₀, n₀) :: rest =>
    if score < s₀ then (score, n) :: (s₀, n₀) :: rest
    else (s₀, n₀) :: zaddInsert rest score n

/-- One user's inbox: the sorted set in ascending rank order and the unread
counter (`INCR`/`DECR` treat an absent key as 0). -/
structure InboxState where
  items : List (Nat × StoredNotification)
  unread : Int
  deriving DecidableEq, Repr

/-- Constant `MAX_NOTIFICATIONS` of the notifications service. -/
def MAX_NOTIFICATIONS : Nat := 50

/-- Model of `createNotification`: `ZADD` the new unread notification at score
`Date.now()`, then if the cardinality exceeds the limit remove the
lowest-ranked overflow (`ZREMRANGEBYRANK key 0 (count - MAX - 1)`), then
`INCR` the unread counter. -/
def createNotification (st : InboxState) (nowMs : Nat) (id : String) : InboxState :=
  let notif : StoredNotification := { id := id, read := false, createdAtMs := nowMs }
  let items1 := zaddInsert st.items nowMs notif
  let count := items1.length
  let items2 :=
    if count > MAX_NOTIFICATIONS then items1.drop (count - MAX_NOTIFICATIONS) else items1
  { items := items2, unread := st.unread + 1 }

/-- Redis `ZREM`: remove the (unique) member equal to the given one. -/
def zremMember (l : List (Nat × StoredNotification)) (p : Nat × StoredNotification) :
    List (Nat × StoredNotification) :=
  match l with
  | [] => []
  | q :: rest => if q = p then rest else q :: zremMember rest p

/-- Model of `markAsRead`: scan in descending rank order for the first entry with the
given id that is still unread; `ZREM` it, `ZADD` it back with `read:true` at
its `createdAt` score, and `DECR` the counter.  Returns whether a change was
made. -/
def markAsRead (st : InboxState) (id : String) : InboxState × Bool :=
  match st.items.reverse.find? (fun p => p.2.id = id && p.2.read = false) with
  | none => (st, false)
  | some p =>
    let removed := zremMember st.items p
    let updated : StoredNotification := { p.2 with read := true }
    ({ items := zaddInsert removed p.2.createdAtMs updated, unread := st.unread - 1 }, true)

/-- Model of `markAllAsRead`: read all entries (descending), `DEL` the key, `ZADD` each
back with `read:true` at its `createdAt` score, and `SET` the counter to 0. -/
def markAllAsRead (st : InboxState) : InboxState :=
  let reinserted :=
    st.items.reverse.foldl
      (fun acc p => zaddInsert acc p.2.createdAtMs { p.2 with read := true }) []
  { items := reinserted, unread := 0 }

/-- Model of `deleteNotification`: scan in ascending rank order for the first entry
with the given id; `ZREM` it and `DECR` the counter only when it was unread. -/
def deleteNotification (st : InboxState) (id : String) : InboxState × Bool :=
  match st.items.find? (fun p => p.2.id = id) with
  | none => (st, false)
  | some p =>
    ({ items := zremMember st.items p,
       unread := if p.2.read = false then st.unread - 1 else st.unread }, true)

/-- Model of `clearAll`: `DEL` both keys; the absent counter reads as 0. -/
def clearAll (_st : InboxState) : InboxState :=
  { items := [], unread := 0 }

/-- The inbox operations of one user, as invoked by the service. -/
inductive InboxOp
  | create (nowMs : Nat) (id : String)
  | markRead (id : String)
  | markAll
  | deleteById (id : String)
  | clear
  deriving DecidableEq, Repr

/-- Apply one inbox operation. -/
def applyInboxOp (st : InboxState) : InboxOp → InboxState
  | .create t id => createNotification st t id
  | .markRead id => (markAsRead st id).1
  | .markAll => markAllAsRead st
  | .deleteById id => (deleteNotification st id).1
  | .clear => clearAll st

/-- The state of a fresh user: empty sorted set, absent counter. -/
def emptyInbox : InboxState := { items := [], unread := 0 }

/-- Run a sequence of inbox operations from the fresh state. -/
def runInbox (ops : List InboxOp) : InboxState :=
  ops.foldl applyInboxOp emptyInbox

/-- Number of unread entries stored in the sorted set. -/
def numUnread (l : List (Nat × StoredNotification)) : Nat :=
  (l.filter (fun p => p.2.read = false)).length

/-- A sequence of creates, each with its timestamp and generated id. -/
def createOps (ts : List (Nat × String)) : List InboxOp :=
  ts.map (fun p => InboxOp.create p.1 p.2)

/-- The stored entry a create with timestamp `t` and id `i` produces. -/
def mkEntry (p : Nat × String) : Nat × StoredNotification :=
  (p.1, { id := p.2, read := false, createdAtMs := p.1 })

/-! ## Helper lemmas -/

/-- A token passing the JWT-shape stage is non-empty (three dot parts). -/
theorem requireJwtShape_ne_empty (tok t : String)
    (h : requireJwtShape tok = some t) : t ≠ "" := by
  unfold requireJwtShape at h
  split at h
  · rename_i hlen
    injection h with h'
    subst h'
    intro hempty
    subst hempty
    simp [jsSplit, splitChar] at hlen
  · exact absurd h (by simp)

/-- A token returned by the cookie extractor is non-empty. -/
theorem extractTokenFromCookies_ne_empty (cfg : GuardConfig) (header t : String)
    (h : extractTokenFromCookies cfg header = some t) : t ≠ "" := by
  simp only [extractTokenFromCookies] at h
  split at h
  · split at h
    · exact absurd h (by simp)
    · split at h
      · exact absurd h (by simp)
      · exact requireJwtShape_ne_empty _ t h
  · exact absurd h (by simp)

/-- A bearer-header candidate is non-empty. -/
theorem bearerTokenCandidate_ne_empty (header : Option String) (t : String)
    (h : bearerTokenCandidate header = some t) : t ≠ "" := by
  simp only [bearerTokenCandidate] at h
  split at h
  · exact absurd h (by simp)
  · split at h
    · exact absurd h (by simp)
    · split at h
      · rename_i hcond
        injection h with h'
        subst h'
        exact hcond.2
      · exact absurd h (by simp)

/-- First truthy candidate in a list (used to state the amended source order). -/
def firstTruthy : List (Option String) → Option String
  | [] => none
  | c :: rest => if truthy c then c else firstTruthy rest

/-- The candidate the handshake extractor takes from the cookie header. -/
def cookieTokenCandidate (cfg : GuardConfig) (hs : Handshake) : Option String :=
  match hs.cookieHeader with
  | some cookies => if cookies ≠ "" then extractTokenFromCookies cfg cookies else none
  | none => none

/-! ## C1 — `broadcastToAll` and the bridge -/

/-- C1 counterexample: `broadcastToAll` publishes nothing on the pub/sub bridge
(the source deliberately skips the Redis publish), so with the bus connected a
peer instance's authenticated socket receives zero copies of the event instead
of exactly one. -/
theorem broadcastToAll_no_bridge_publication :
    broadcastToAllPublished true "call:new" "d" = [] ∧
    deliveriesAtPeer
      { instanceId := "inst-B",
        sockets := [{ sid := "sB", user := some { userId := 9, login := none, role := "operator" },
                      rooms := ["operators"] }] }
      (broadcastToAllPublished true "call:new" "d")
      { sid := "sB", user := some { userId := 9, login := none, role := "operator" },
        rooms := ["operators"] } = 0 :=
  ⟨rfl, rfl⟩

/-- C1 amended: `broadcastToAll(event, data)` emits the event exactly once to
every locally connected socket and publishes nothing on the bridge, so a peer
instance delivers nothing; the `{event, data, originInstanceId}` envelope (no
room) is published only by `emitAvitoEvent`, for which the origin delivers
exactly once to each local socket (its own echo is dropped via
`originInstanceId`) and every peer instance delivers exactly once to each of
its local sockets. -/
theorem broadcastToAll_local_only_amended (origin peer : ServiceInstance) (s : InstSocket)
    (redis : Bool) (event payload : String) (hne : peer.instanceId ≠ origin.instanceId) :
    broadcastToAllPublished redis event payload = [] ∧
    deliveriesAtOrigin origin emitToAllCount (broadcastToAllPublished redis event payload) s = 1 ∧
    deliveriesAtPeer peer (broadcastToAllPublished redis event payload) s = 0 ∧
    deliveriesAtOrigin origin emitToAllCount
      (emitAvitoEventPublished true origin.instanceId event payload) s = 1 ∧
    deliveriesAtPeer peer (emitAvitoEventPublished true origin.instanceId event payload) s = 1 := by
  refine ⟨rfl, rfl, rfl, ?_, ?_⟩
  · simp [deliveriesAtOrigin, emitAvitoEventPublished, redisCallbackDeliveries, emitToAllCount]
  · simp [deliveriesAtPeer, emitAvitoEventPublished, redisCallbackDeliveries, emitToAllCount,
      Ne.symm hne]

/-- C1 witness for `broadcastToAll_local_only_amended` at concrete instances. -/
theorem broadcastToAll_local_only_amended_witness :
    ("inst-B" : String) ≠ "inst-A" ∧
    deliveriesAtPeer { instanceId := "inst-B", sockets := [] }
      (emitAvitoEventPublished true "inst-A" "avito-new-message" "x")
      { sid := "sB", user := none, rooms := [] } = 1 :=
  ⟨by decide,
   (broadcastToAll_local_only_amended { instanceId := "inst-A", sockets := [] }
      { instanceId := "inst-B", sockets := [] }
      { sid := "sB", user := none, rooms := [] } true "avito-new-message" "x"
      (by decide)).2.2.2.2⟩

/-! ## C2 — `broadcastToRoom` and self-echo suppression -/

/-- C2: the claim is right and the code is wrong.  `broadcastToRoom` publishes
`{room, event, data}` without `originInstanceId`, so the publishing instance's
own bridge receiver does not drop the echoed envelope and re-emits it: with the
bus connected, a local socket that is a member of the room receives the event
twice, contradicting the suppression rule the source's own FIX comments state. -/
theorem broadcastToRoom_self_echo_double_delivery :
    (broadcastToRoomPublished true "operators" "call:new" "d").map
      (fun e => e.originInstanceId) = [none] ∧
    deliveriesAtOrigin
      { instanceId := "inst-A",
        sockets := [{ sid := "s1", user := some { userId := 7, login := none, role := "operator" },
                      rooms := ["operators"] }] }
      (emitToRoomCount "operators")
      (broadcastToRoomPublished true "operators" "call:new" "d")
      { sid := "s1", user := some { userId := 7, login := none, role := "operator" },
        rooms := ["operators"] } = 2 :=
  ⟨rfl, by decide⟩

/-! ## C3 — token source order -/

/-- C3 counterexample: a handshake carrying both an `auth.token` and an
`access_token` cookie (different values), with no token in the message
payload, resolves to the cookie token, not the `auth.token`. -/
theorem token_order_cookie_over_auth :
    resolveToken { cookieSecret := none, hmacSha256Base64Url := fun _ => "" } none
      { cookieHeader := some "access_token=aa.bb.cc", authToken := some "xx.yy.zz",
        queryToken := none, authorizationHeader := none } = some "aa.bb.cc" ∧
    ("aa.bb.cc" : String) ≠ "xx.yy.zz" :=
  ⟨rfl, by decide⟩

/-- C3 amended: the token sources are tried in the order (1) payload field of
the `authenticate` message, (2) `access_token`/`__Host-access_token` cookie of
the handshake cookie header, (3) handshake `auth.token`, (4) handshake query
`token`, (5) `Authorization: Bearer` header — stopping at the first source
that yields a non-empty candidate; in particular, with both an `auth.token`
and a well-formed cookie token present and no payload token, the cookie token
is the one verified. -/
theorem token_source_order_amended (cfg : GuardConfig) (dataToken : Option String)
    (hs : Handshake) :
    resolveToken cfg dataToken hs =
      firstTruthy [dataToken, cookieTokenCandidate cfg hs, hs.authToken, hs.queryToken,
        bearerTokenCandidate hs.authorizationHeader] := by
  have hrest : extractRemainingSources hs =
      firstTruthy [hs.authToken, hs.queryToken, bearerTokenCandidate hs.authorizationHeader] := by
    unfold extractRemainingSources
    by_cases ha : truthy hs.authToken
    · simp [firstTruthy, ha]
    · by_cases hq : truthy hs.queryToken
      · simp [firstTruthy, ha, hq]
      · cases hb : bearerTokenCandidate hs.authorizationHeader with
        | none => simp [firstTruthy, ha, hq, truthy]
        | some t =>
          have ht := bearerTokenCandidate_ne_empty hs.authorizationHeader t hb
          simp [firstTruthy, ha, hq, truthy, ht]
  have hcookie : extractTokenFromHandshake cfg hs =
      firstTruthy [cookieTokenCandidate cfg hs, hs.authToken, hs.queryToken,
        bearerTokenCandidate hs.authorizationHeader] := by
    unfold extractTokenFromHandshake cookieTokenCandidate
    cases hch : hs.cookieHeader with
    | none => simp [firstTruthy, truthy, hrest]
    | some cookies =>
      by_cases hcne : cookies = ""
      · simp [hcne, firstTruthy, truthy, hrest]
      · simp only [if_pos hcne, ne_eq]
        cases hc : extractTokenFromCookies cfg cookies with
        | none => simp [hcne, firstTruthy, truthy, hrest]
        | some t =>
          have ht := extractTokenFromCookies_ne_empty cfg cookies t hc
          simp [hcne, firstTruthy, truthy, ht]
  by_cases hd : truthy dataToken
  · simp [resolveToken, firstTruthy, hd]
  · simp [resolveToken, firstTruthy, hd, hcookie]

/-! ## C4 — cookie-signature failure -/

/-- Splitting a list that does not contain the separator yields one group. -/
theorem splitChar_of_not_mem (sep : Char) (cs : List Char) (h : sep ∉ cs) :
    splitChar sep cs = [cs] := by
  induction cs with
  | nil => rfl
  | cons c rest ih =>
    simp only [splitChar]
    rw [if_neg (fun hc : c = sep => h (by rw [← hc]; exact List.mem_cons_self c rest)),
      ih (fun hm => h (List.mem_cons_of_mem _ hm))]

/-- C4 counterexample: with a configured cookie secret, a four-part cookie
token whose trailing signature fails verification is not a hard rejection of
the authentication attempt: the guard falls back to the handshake
`auth.token`, verifies it, and accepts the connection. -/
theorem cookie_signature_fallback_counterexample :
    extractTokenFromCookies
      { cookieSecret := some "secret", hmacSha256Base64Url := fun _ => "GOODSIG" }
      "access_token=hh.pp.ss.BADSIG" = none ∧
    canActivate
      { cookieSecret := some "secret", hmacSha256Base64Url := fun _ => "GOODSIG" }
      (fun t => if t = "xx.yy.zz" then
         some { userId := 7, login := none, role := "operator" } else none)
      { user := none } none
      { cookieHeader := some "access_token=hh.pp.ss.BADSIG", authToken := some "xx.yy.zz",
        queryToken := none, authorizationHeader := none } =
      .accepted { user := some { userId := 7, login := none, role := "operator" } } :=
  ⟨rfl, rfl⟩

/-- C4 amended: failure of the cookie-signature check (a URL-decoded cookie
value with four dot-separated segments whose trailing segment fails the HMAC
verification) is a hard rejection of the cookie source only: no token is
extracted from the cookie header, and the guard falls back to the remaining
handshake sources (`auth.token`, query token, `Authorization: Bearer` header);
the attempt fails only when those also yield no token. -/
theorem cookie_signature_soft_reject_amended (cfg : GuardConfig) (hs : Handshake)
    (header v decoded : String)
    (hhs : hs.cookieHeader = some header) (hne : header ≠ "")
    (hv : jsOr (cookieLookup (parseCookies header) "access_token")
      (cookieLookup (parseCookies header) "__Host-access_token") = some v)
    (hvne : v ≠ "")
    (hdec : decodeUriComponent v = some decoded)
    (hparts : (jsSplit decoded '.').length = 4)
    (hverify : verifyCookieSignature cfg (joinWith '.' ((jsSplit decoded '.').take 3))
      ((jsSplit decoded '.').getLastD "") = false) :
    extractTokenFromCookies cfg header = none ∧
    extractTokenFromHandshake cfg hs = extractRemainingSources hs := by
  have hcont : '.' ∈ decoded.data := by
    by_contra hnm
    rw [jsSplit, splitChar_of_not_mem '.' decoded.data hnm] at hparts
    simp at hparts
  have hsig : stripCookieSignature cfg decoded = none := by
    unfold stripCookieSignature
    rw [if_pos hcont, if_pos hparts, if_neg]
    intro hcontra
    rw [hcontra] at hverify
    exact absurd hverify (by simp)
  have hcook : extractTokenFromCookies cfg header = none := by
    simp only [extractTokenFromCookies]
    rw [hv]
    simp [truthy, hvne, hdec, hsig]
  refine ⟨hcook, ?_⟩
  unfold extractTokenFromHandshake
  rw [hhs]
  simp [hne, hcook]

/-- C4 witness for `cookie_signature_soft_reject_amended` at concrete inputs. -/
theorem cookie_signature_soft_reject_amended_witness :
    extractTokenFromCookies
      { cookieSecret := some "s", hmacSha256Base64Url := fun _ => "RIGHT" }
      "access_token=h1.p1.s1.WRONG" = none ∧
    extractTokenFromHandshake
      { cookieSecret := some "s", hmacSha256Base64Url := fun _ => "RIGHT" }
      { cookieHeader := some "access_token=h1.p1.s1.WRONG", authToken := some "a.b.c",
        queryToken := none, authorizationHeader := none } =
    extractRemainingSources
      { cookieHeader := some "access_token=h1.p1.s1.WRONG", authToken := some "a.b.c",
        queryToken := none, authorizationHeader := none } :=
  cookie_signature_soft_reject_amended
    { cookieSecret := some "s", hmacSha256Base64Url := fun _ => "RIGHT" }
    { cookieHeader := some "access_token=h1.p1.s1.WRONG", authToken := some "a.b.c",
      queryToken := none, authorizationHeader := none }
    "access_token=h1.p1.s1.WRONG" "h1.p1.s1.WRONG" "h1.p1.s1.WRONG"
    rfl (by decide) rfl (by decide) rfl rfl rfl

/-! ## C5 — webhook token validation -/

/-- C5 counterexample: in the plain controller variant, a mismatched webhook
token is answered with HTTP status 200 and `{success:false}`, not 401, and the
comparison is plain string inequality rather than a constant-time compare. -/
theorem webhook_plain_variant_200_on_mismatch :
    broadcastNewCallPlain (some "SECRET") (some "WRONG") =
      { status := 200, success := false, message := "Invalid token" } ∧
    (broadcastNewCallPlain (some "SECRET") (some "WRONG")).status ≠ 401 :=
  ⟨rfl, by decide⟩

/-- C5 amended: in the controller variant using `validateWebhookToken`, a
request whose token mismatches the configured secret (compared via
`crypto.timingSafeEqual`) is answered 401 with a constant body that does not
echo the submitted value, and an unconfigured secret is answered 401
per-request ("Webhook authentication not configured") rather than being a
fatal boot error; in the other controller variant the comparison is plain
`!==` and a mismatch is answered with HTTP 200 `{success:false}`. -/
theorem webhook_token_validation_amended (env tok : Option String) :
    (truthy env = false → validateWebhookToken env tok =
      some { status := 401, success := false, message := "Webhook authentication not configured" }) ∧
    (∀ r, validateWebhookToken env tok = some r →
      r.status = 401 ∧ r.success = false ∧
      (r.message = "Invalid webhook token" ∨ r.message = "Webhook authentication not configured")) ∧
    (validateWebhookToken env tok = none ↔
      truthy env = true ∧ truthy tok = true ∧ secureCompare (tok.getD "") (env.getD "") = true) ∧
    (tok ≠ env → broadcastNewCallPlain env tok =
      { status := 200, success := false, message := "Invalid token" }) := by
  refine ⟨?_, ?_, ?_, ?_⟩
  · intro h
    simp [validateWebhookToken, h]
  · intro r hr
    unfold validateWebhookToken at hr
    split at hr
    · injection hr with hr
      subst hr
      simp
    · split at hr
      · injection hr with hr
        subst hr
        simp
      · exact absurd hr (by simp)
  · unfold validateWebhookToken
    constructor
    · intro h
      split at h
      · exact absurd h (by simp)
      · split at h
        · exact absurd h (by simp)
        · rename_i henv hcmp
          push_neg at hcmp
          refine ⟨by simpa using henv, ?_, ?_⟩
          · simpa using hcmp.1
          · simpa using hcmp.2
    · intro ⟨h1, h2, h3⟩
      simp [h1, h2, h3]
  · intro h
    simp [broadcastNewCallPlain, h]

/-- C5 witness for `webhook_token_validation_amended` at concrete inputs. -/
theorem webhook_token_validation_amended_witness :
    validateWebhookToken none (some "tok") =
      some { status := 401, success := false, message := "Webhook authentication not configured" } ∧
    broadcastNewCallPlain (some "SECRET") (some "nope") =
      { status := 200, success := false, message := "Invalid token" } :=
  ⟨(webhook_token_validation_amended none (some "tok")).1 (by decide),
   (webhook_token_validation_amended (some "SECRET") (some "nope")).2.2.2 (by decide)⟩

/-! ## C6, C7 — room-name validation and join/leave -/

/-- The room-name constraint as the spec words it: characters from
`[A-Za-z0-9:_-]` only, length between 1 and 100. -/
def roomNameSpecOk (room : String) : Prop :=
  1 ≤ room.length ∧ room.length ≤ 100 ∧ ∀ c ∈ room.data, isRoomNameChar c

instance (room : String) : Decidable (roomNameSpecOk room) := by
  unfold roomNameSpecOk
  infer_instance

/-- The access-control conditions of `handleJoinRoom`, sliced out of the
handler: `directors` needs role `director`; per-subject rooms need a parsed id
equal to the joiner's own `userId` unless the joiner is a `director`. -/
def joinAclAllows (user : UserInfo) (room : String) : Bool :=
  if room = "directors" ∧ user.role ≠ "director" then false
  else if jsStartsWith room "operator:" then
    match jsParseInt (((jsSplit room ':').drop 1).headD "") with
    | none => false
    | some targetUserId =>
      if targetUserId ≠ user.userId ∧ user.role ≠ "director" then false else true
  else if jsStartsWith room "master:" ∨ jsStartsWith room "user:" then
    match jsParseInt (((jsSplit room ':').drop 1).headD "") with
    | none => false
    | some targetUserId =>
      if targetUserId ≠ user.userId ∧ user.role ≠ "director" then false else true
  else true

/-- DTO acceptance implies the handler regex. -/
theorem pattern_of_dto (room : String) (h : joinRoomDtoAccepts room = true) :
    roomNameMatchesPattern room = true := by
  unfold joinRoomDtoAccepts at h
  simp only [Bool.and_eq_true] at h
  exact h.2

/-- The DTO validation decides exactly the spec's room-name constraint. -/
theorem joinRoomDtoAccepts_iff (room : String) :
    joinRoomDtoAccepts room = true ↔ roomNameSpecOk room := by
  unfold joinRoomDtoAccepts roomNameMatchesPattern roomNameSpecOk
  constructor
  · intro h
    simp only [Bool.and_eq_true, decide_eq_true_eq, List.all_eq_true, ge_iff_le] at h
    tauto
  · intro h
    simp only [Bool.and_eq_true, decide_eq_true_eq, List.all_eq_true, ge_iff_le]
    tauto

/-- Characterisation of `handleJoinRoom`: with name validation and ACL both
passing the handler joins the room and acknowledges; a success acknowledgement
conversely implies both, and the result is always either the join or the
untouched room list with an error. -/
theorem handleJoinRoom_cases (user : UserInfo) (rooms : List String) (room : String) :
    (joinRoomDtoAccepts room = true → joinAclAllows user room = true →
      handleJoinRoom user rooms room = (joinList rooms room, .ok room)) ∧
    ((handleJoinRoom user rooms room).2.isOk = true →
      joinRoomDtoAccepts room = true ∧ joinAclAllows user room = true ∧
      handleJoinRoom user rooms room = (joinList rooms room, .ok room)) ∧
    ((handleJoinRoom user rooms room).2.isOk = false →
      (handleJoinRoom user rooms room).1 = rooms) := by
  unfold handleJoinRoom joinAclAllows
  cases hdto : joinRoomDtoAccepts room with
  | false => simp [WsResult.isOk]
  | true =>
    have hpat := pattern_of_dto room hdto
    simp only [hpat, hdto, Bool.true_eq_false, if_false]
    by_cases hdir : room = "directors" ∧ user.role ≠ "director"
    · simp [hdir, WsResult.isOk]
    · simp only [hdir, if_false]
      by_cases hop : jsStartsWith room "operator:" = true
      · simp only [hop, if_true]
        cases hp : jsParseInt (((jsSplit room ':').drop 1).headD "") with
        | none => simp [WsResult.isOk]
        | some target =>
          by_cases hacl : target ≠ user.userId ∧ user.role ≠ "director"
          · simp [hacl, WsResult.isOk]
          · simp [hacl, WsResult.isOk]
      · simp only [Bool.not_eq_true] at hop
        simp only [hop, Bool.false_eq_true, if_false]
        by_cases hmu : jsStartsWith room "master:" = true ∨ jsStartsWith room "user:" = true
        · simp only [hmu, if_true]
          cases hp : jsParseInt (((jsSplit room ':').drop 1).headD "") with
          | none => simp [WsResult.isOk]
          | some target =>
            by_cases hacl : target ≠ user.userId ∧ user.role ≠ "director"
            · simp [hacl, WsResult.isOk]
            · simp [hacl, WsResult.isOk]
        · simp [hmu, WsResult.isOk]

/-- Lemma: `handleLeaveRoom` on a DTO-valid name performs the leave. -/
theorem handleLeaveRoom_of_dto (rooms : List String) (room : String)
    (hdto : joinRoomDtoAccepts room = true) :
    handleLeaveRoom rooms room = (leaveList rooms room, .ok room) := by
  unfold handleLeaveRoom
  simp [hdto, pattern_of_dto room hdto]

/-- Lemma: `handleLeaveRoom` on a DTO-invalid name rejects and leaves the set alone. -/
theorem handleLeaveRoom_of_not_dto (rooms : List String) (room : String)
    (hdto : joinRoomDtoAccepts room = false) :
    handleLeaveRoom rooms room = (rooms, .wsError "Validation failed") := by
  unfold handleLeaveRoom
  simp [hdto]

/-- Removing `r` after an idempotent insert of `r` equals removing `r`. -/
theorem leaveList_joinList (l : List String) (r : String) :
    leaveList (joinList l r) r = leaveList l r := by
  unfold joinList leaveList
  by_cases h : r ∈ l
  · simp [h]
  · simp [h, List.filter_append]

/-- Removing an absent element is the identity. -/
theorem leaveList_of_not_mem (l : List String) (r : String) (h : r ∉ l) :
    leaveList l r = l := by
  unfold leaveList
  apply List.filter_eq_self.mpr
  intro a ha
  simp only [ne_eq, decide_eq_true_eq]
  exact fun he => h (he ▸ ha)

/-- C6: for both join-room and leave-room, a room name is accepted if and only
if it consists solely of characters in `[A-Za-z0-9:_-]` and its length is
between 1 and 100; every violating name (including names longer than 100
characters) fails the operation and leaves the room set unchanged, and a valid
name succeeds (for join, whenever the access-control checks also pass). -/
theorem room_name_validation_iff (user : UserInfo) (rooms : List String) (room : String) :
    ((handleLeaveRoom rooms room).2.isOk = true ↔ roomNameSpecOk room) ∧
    (¬ roomNameSpecOk room →
      handleJoinRoom user rooms room = (rooms, .wsError "Validation failed") ∧
      handleLeaveRoom rooms room = (rooms, .wsError "Validation failed")) ∧
    ((handleJoinRoom user rooms room).2.isOk = true → roomNameSpecOk room) ∧
    (roomNameSpecOk room → joinAclAllows user room = true →
      (handleJoinRoom user rooms room).2.isOk = true) := by
  refine ⟨?_, ?_, ?_, ?_⟩
  · cases hdto : joinRoomDtoAccepts room with
    | false =>
      rw [handleLeaveRoom_of_not_dto rooms room hdto]
      simp only [WsResult.isOk, Bool.false_eq_true, false_iff]
      exact fun hs => by rw [(joinRoomDtoAccepts_iff room).mpr hs] at hdto; exact absurd hdto (by simp)
    | true =>
      rw [handleLeaveRoom_of_dto rooms room hdto]
      simp [WsResult.isOk, (joinRoomDtoAccepts_iff room).mp hdto]
  · intro hns
    have hdto : joinRoomDtoAccepts room = false := by
      cases hd : joinRoomDtoAccepts room with
      | false => rfl
      | true => exact absurd ((joinRoomDtoAccepts_iff room).mp hd) hns
    refine ⟨?_, handleLeaveRoom_of_not_dto rooms room hdto⟩
    unfold handleJoinRoom
    simp [hdto]
  · intro hok
    exact (joinRoomDtoAccepts_iff room).mp ((handleJoinRoom_cases user rooms room).2.1 hok).1
  · intro hspec hacl
    rw [(handleJoinRoom_cases user rooms room).1 ((joinRoomDtoAccepts_iff room).mpr hspec) hacl]
    rfl

/-- C6 witness for `room_name_validation_iff`: a valid name is accepted, a
101-character name is rejected by both operations. -/
theorem room_name_validation_iff_witness :
    (handleLeaveRoom ["operators"] "operators").2.isOk = true ∧
    handleJoinRoom { userId := 7, login := none, role := "operator" } []
      (String.mk (List.replicate 101 'a')) = ([], .wsError "Validation failed") ∧
    (handleJoinRoom { userId := 7, login := none, role := "operator" } [] "operators").2.isOk
      = true :=
  ⟨(room_name_validation_iff { userId := 7, login := none, role := "operator" }
      ["operators"] "operators").1.mpr (by decide),
   ((room_name_validation_iff { userId := 7, login := none, role := "operator" } []
      (String.mk (List.replicate 101 'a'))).2.1 (by decide)).1,
   (room_name_validation_iff { userId := 7, login := none, role := "operator" } []
      "operators").2.2.2 (by decide) (by decide)⟩

/-- C7 counterexample: with the connection already a member of `operators`,
join-room(`operators`) followed by leave-room(`operators`) leaves the room set
empty — not equal to the set before the pair. -/
theorem join_then_leave_counterexample :
    (handleJoinRoom { userId := 7, login := none, role := "operator" }
      ["operators"] "operators").2 = .ok "operators" ∧
    (handleLeaveRoom
      (handleJoinRoom { userId := 7, login := none, role := "operator" }
        ["operators"] "operators").1 "operators").1 = [] ∧
    ([] : List String) ≠ ["operators"] :=
  ⟨rfl, rfl, by decide⟩

/-- C7 amended: for a successful join-room(r) immediately followed by
leave-room(r), the final room set is the previous set with `r` removed; it
equals the set before the pair exactly when `r` was not already a member. -/
theorem join_then_leave_amended (user : UserInfo) (rooms : List String) (room : String)
    (hok : (handleJoinRoom user rooms room).2.isOk = true) :
    (handleLeaveRoom (handleJoinRoom user rooms room).1 room).1 = leaveList rooms room ∧
    (room ∉ rooms → (handleLeaveRoom (handleJoinRoom user rooms room).1 room).1 = rooms) := by
  obtain ⟨hdto, _, heq⟩ := (handleJoinRoom_cases user rooms room).2.1 hok
  rw [heq]
  rw [handleLeaveRoom_of_dto _ _ hdto]
  refine ⟨leaveList_joinList rooms room, ?_⟩
  intro hnm
  rw [leaveList_joinList]
  exact leaveList_of_not_mem rooms room hnm

/-- C7 witness for `join_then_leave_amended` at a concrete connection. -/
theorem join_then_leave_amended_witness :
    (handleLeaveRoom
      (handleJoinRoom { userId := 7, login := none, role := "operator" }
        ["city:kazan"] "operators").1 "operators").1 = ["city:kazan"] :=
  (join_then_leave_amended { userId := 7, login := none, role := "operator" }
    ["city:kazan"] "operators" (by decide)).2 (by decide)

/-! ## C10 — authenticated sockets bypass the guard -/

/-- C10: once a socket has successfully authenticated (`client.data.user` is
set), the guard accepts every subsequent message without re-verifying any
token; a later authenticate message carrying an invalid, expired, or missing
token still succeeds; and the recorded identity — `client.data.user`, and the
`connectedUsers` entry once present — never changes for any later message. -/
theorem authenticated_guard_bypass (cfg : GuardConfig) (verify : String → Option UserInfo)
    (hs : Handshake) (c : GatewayClient) (u : UserInfo) (msg : ClientMessage)
    (hu : c.user = some u) :
    canActivate cfg verify { user := c.user } msg.dataToken hs =
      .accepted { user := c.user } ∧
    (gatewayStep cfg verify hs msg c).1.user = some u ∧
    (∀ tok, msg = ClientMessage.authenticate tok →
      (gatewayStep cfg verify hs msg c).2 = .ok "authenticated") ∧
    (c.registered = some u → (gatewayStep cfg verify hs msg c).1.registered = some u) := by
  have hguard : canActivate cfg verify { user := c.user } msg.dataToken hs =
      .accepted { user := c.user } := by
    unfold canActivate
    rw [hu]
  refine ⟨hguard, ?_⟩
  unfold gatewayStep
  rw [hguard]
  have hc1 : ({ c with user := ({ user := c.user } : ClientData).user } : GatewayClient) = c := rfl
  cases msg with
  | authenticate tok =>
    simp only [hc1]
    unfold handleAuthenticate
    rw [hu]
    exact ⟨rfl, fun _ _ => rfl, fun _ => rfl⟩
  | joinRoom room tok =>
    simp only [hc1]
    rw [hu]
    refine ⟨rfl, ?_, ?_⟩
    · intro t ht
      cases ht
    · intro hr
      exact hr
  | leaveRoom room tok =>
    simp only [hc1]
    refine ⟨hu, ?_, ?_⟩
    · intro t ht
      cases ht
    · intro hr
      exact hr

/-- C10 witness: an already-authenticated socket re-sending `authenticate`
with a token every verifier rejects still gets `{success:true}` and keeps its
recorded identity. -/
theorem authenticated_guard_bypass_witness :
    (gatewayStep { cookieSecret := none, hmacSha256Base64Url := fun _ => "" }
      (fun _ => none)
      { cookieHeader := none, authToken := none, queryToken := none,
        authorizationHeader := none }
      (ClientMessage.authenticate (some "expired.or.garbage"))
      { user := some { userId := 7, login := none, role := "operator" },
        rooms := ["operator", "operators"],
        registered := some { userId := 7, login := none, role := "operator" } }).2 =
      .ok "authenticated" ∧
    (gatewayStep { cookieSecret := none, hmacSha256Base64Url := fun _ => "" }
      (fun _ => none)
      { cookieHeader := none, authToken := none, queryToken := none,
        authorizationHeader := none }
      (ClientMessage.authenticate (some "expired.or.garbage"))
      { user := some { userId := 7, login := none, role := "operator" },
        rooms := ["operator", "operators"],
        registered := some { userId := 7, login := none, role := "operator" } }).1.user =
      some { userId := 7, login := none, role := "operator" } :=
  ⟨(authenticated_guard_bypass
      { cookieSecret := none, hmacSha256Base64Url := fun _ => "" } (fun _ => none)
      { cookieHeader := none, authToken := none, queryToken := none,
        authorizationHeader := none }
      { user := some { userId := 7, login := none, role := "operator" },
        rooms := ["operator", "operators"],
        registered := some { userId := 7, login := none, role := "operator" } }
      { userId := 7, login := none, role := "operator" }
      (ClientMessage.authenticate (some "expired.or.garbage")) rfl).2.2.1
      (some "expired.or.garbage") rfl,
   (authenticated_guard_bypass
      { cookieSecret := none, hmacSha256Base64Url := fun _ => "" } (fun _ => none)
      { cookieHeader := none, authToken := none, queryToken := none,
        authorizationHeader := none }
      { user := some { userId := 7, login := none, role := "operator" },
        rooms := ["operator", "operators"],
        registered := some { userId := 7, login := none, role := "operator" } }
      { userId := 7, login := none, role := "operator" }
      (ClientMessage.authenticate (some "expired.or.garbage")) rfl).2.1⟩

/-! ## Inbox lemmas -/

/-- Unread count of a cons. -/
theorem numUnread_cons (p : Nat × StoredNotification) (l : List (Nat × StoredNotification)) :
    numUnread (p :: l) = (if p.2.read = false then 1 else 0) + numUnread l := by
  unfold numUnread
  by_cases h : p.2.read = false
  · simp [List.filter_cons, h]
    omega
  · simp [List.filter_cons, h]

/-- Lemma: `zaddInsert` adds exactly the new member. -/
theorem numUnread_zaddInsert (l : List (Nat × StoredNotification)) (s : Nat)
    (n : StoredNotification) :
    numUnread (zaddInsert l s n) =
      numUnread l + (if n.read = false then 1 else 0) := by
  induction l with
  | nil =>
    unfold zaddInsert
    rw [numUnread_cons]
    simp [numUnread]
  | cons p rest ih =>
    obtain ⟨s₀, n₀⟩ := p
    unfold zaddInsert
    by_cases hlt : s < s₀
    · rw [if_pos hlt, numUnread_cons, numUnread_cons]
      by_cases hr : n.read = false
      · simp [hr]
        omega
      · simp [hr]
    · rw [if_neg hlt, numUnread_cons, ih, numUnread_cons]
      omega

/-- Trimming (a suffix) cannot increase the unread count. -/
theorem numUnread_drop_le (k : Nat) (l : List (Nat × StoredNotification)) :
    numUnread (l.drop k) ≤ numUnread l :=
  ((List.drop_sublist k l).filter _).length_le

/-- Lemma: `numUnread` is invariant under permutation. -/
theorem numUnread_perm {l l' : List (Nat × StoredNotification)} (h : l.Perm l') :
    numUnread l = numUnread l' :=
  (h.filter _).length_eq

/-- Membership after `zaddInsert`. -/
theorem mem_zaddInsert (l : List (Nat × StoredNotification)) (s : Nat)
    (n : StoredNotification) (q : Nat × StoredNotification) :
    q ∈ zaddInsert l s n ↔ q = (s, n) ∨ q ∈ l := by
  induction l with
  | nil =>
    unfold zaddInsert
    simp
  | cons p rest ih =>
    obtain ⟨s₀, n₀⟩ := p
    unfold zaddInsert
    split_ifs with hlt
    · simp
    · simp only [List.mem_cons, ih]
      tauto

/-- Lemma: `zaddInsert` appends when the score dominates the stored ones. -/
theorem zaddInsert_append (l : List (Nat × StoredNotification)) (s : Nat)
    (n : StoredNotification) (h : ∀ p ∈ l, p.1 ≤ s) :
    zaddInsert l s n = l ++ [(s, n)] := by
  induction l with
  | nil => rfl
  | cons p rest ih =>
    obtain ⟨s₀, n₀⟩ := p
    unfold zaddInsert
    rw [if_neg (Nat.not_lt.mpr (h (s₀, n₀) (List.mem_cons_self _ _))),
      ih (fun q hq => h q (List.mem_cons_of_mem _ hq))]
    rfl

/-- Every entry of the `markAllAsRead` re-insertion fold is read. -/
theorem foldl_zadd_read (xs : List (Nat × StoredNotification))
    (acc : List (Nat × StoredNotification)) (hacc : ∀ q ∈ acc, q.2.read = true) :
    ∀ q ∈ xs.foldl
      (fun a p => zaddInsert a p.2.createdAtMs { p.2 with read := true }) acc,
      q.2.read = true := by
  induction xs generalizing acc with
  | nil => exact hacc
  | cons p rest ih =>
    intro q hq
    refine ih _ ?_ q hq
    intro r hr
    rcases (mem_zaddInsert _ _ _ r).mp hr with h | h
    · rw [h]
    · exact hacc r h

/-- The unread count of an all-read list is zero. -/
theorem numUnread_eq_zero (l : List (Nat × StoredNotification))
    (h : ∀ q ∈ l, q.2.read = true) : numUnread l = 0 := by
  unfold numUnread
  rw [List.length_eq_zero, List.filter_eq_nil_iff]
  intro a ha
  simp [h a ha]

/-- The store invariant tying the counter to the set: the counter dominates
the number of unread stored entries (trimming never decrements the counter). -/
def inboxInv (st : InboxState) : Prop :=
  (numUnread st.items : Int) ≤ st.unread

/-- The invariant holds initially. -/
theorem inboxInv_empty : inboxInv emptyInbox := by
  unfold inboxInv emptyInbox numUnread
  simp

/-- Every inbox operation preserves the invariant. -/
theorem perm_cons_zrem (p : Nat × StoredNotification) (l : List (Nat × StoredNotification))
    (h : p ∈ l) : l.Perm (p :: zremMember l p) := by
  induction l with
  | nil => cases h
  | cons q rest ih =>
    unfold zremMember
    by_cases hq : q = p
    · subst hq
      simp
    · rw [if_neg hq]
      have hp : p ∈ rest := by
        cases List.mem_cons.mp h with
        | inl he => exact absurd he.symm hq
        | inr hm => exact hm
      exact ((ih hp).cons q).trans (List.Perm.swap p q (zremMember rest p))

theorem inboxInv_step (st : InboxState) (op : InboxOp) (h : inboxInv st) :
    inboxInv (applyInboxOp st op) := by
  unfold inboxInv at h
  cases op with
  | create t id =>
    simp only [applyInboxOp, createNotification]
    unfold inboxInv
    have h2 : numUnread (zaddInsert st.items t { id := id, read := false, createdAtMs := t })
        = numUnread st.items + 1 := by
      rw [numUnread_zaddInsert]
      simp
    split_ifs with hcap
    · have h1 := numUnread_drop_le
        ((zaddInsert st.items t { id := id, read := false, createdAtMs := t }).length
          - MAX_NOTIFICATIONS)
        (zaddInsert st.items t { id := id, read := false, createdAtMs := t })
      simp only
      omega
    · simp only
      omega
  | markRead id =>
    cases hf : st.items.reverse.find? (fun p => p.2.id = id && p.2.read = false) with
    | none =>
      have happ : applyInboxOp st (.markRead id) = st := by
        simp only [applyInboxOp, markAsRead, hf]
      rw [happ]
      exact h
    | some p =>
      have hmem : p ∈ st.items := List.mem_reverse.mp (List.mem_of_find?_eq_some hf)
      have hpred := List.find?_some hf
      simp only [Bool.and_eq_true, decide_eq_true_eq] at hpred
      have hperm := perm_cons_zrem p st.items hmem
      have hcount : numUnread st.items = 1 + numUnread (zremMember st.items p) := by
        rw [numUnread_perm hperm, numUnread_cons, if_pos hpred.2]
      have happ : applyInboxOp st (.markRead id) =
          { items := zaddInsert (zremMember st.items p) p.2.createdAtMs
              { p.2 with read := true },
            unread := st.unread - 1 } := by
        simp only [applyInboxOp, markAsRead, hf]
      have hz : numUnread (zaddInsert (zremMember st.items p) p.2.createdAtMs
          { p.2 with read := true }) = numUnread (zremMember st.items p) := by
        rw [numUnread_zaddInsert]
        simp
      rw [happ]
      unfold inboxInv
      simp only [hz]
      omega
  | markAll =>
    simp only [applyInboxOp, markAllAsRead]
    unfold inboxInv
    simp only
    rw [numUnread_eq_zero _ (foldl_zadd_read _ _ (by intro q hq; cases hq))]
    omega
  | deleteById id =>
    cases hf : st.items.find? (fun p => p.2.id = id) with
    | none =>
      have happ : applyInboxOp st (.deleteById id) = st := by
        simp only [applyInboxOp, deleteNotification, hf]
      rw [happ]
      exact h
    | some p =>
      have hmem : p ∈ st.items := List.mem_of_find?_eq_some hf
      have hperm := perm_cons_zrem p st.items hmem
      have happ : applyInboxOp st (.deleteById id) =
          { items := zremMember st.items p,
            unread := if p.2.read = false then st.unread - 1 else st.unread } := by
        simp only [applyInboxOp, deleteNotification, hf]
      rw [happ]
      unfold inboxInv
      split_ifs with hread
      · have hcount : numUnread st.items = 1 + numUnread (zremMember st.items p) := by
          rw [numUnread_perm hperm, numUnread_cons, if_pos hread]
        simp only
        omega
      · have hcount : numUnread st.items = numUnread (zremMember st.items p) := by
          rw [numUnread_perm hperm, numUnread_cons, if_neg hread]
          omega
        simp only
        omega
  | clear =>
    simp only [applyInboxOp, clearAll]
    unfold inboxInv numUnread
    simp

/-- The invariant holds after any operation sequence from the fresh state. -/
theorem inboxInv_run (ops : List InboxOp) : inboxInv (runInbox ops) := by
  unfold runInbox
  have hgen : ∀ (l : List InboxOp) (st : InboxState), inboxInv st →
      inboxInv (l.foldl applyInboxOp st) := by
    intro l
    induction l with
    | nil => exact fun st h => h
    | cons op rest ih => exact fun st h => ih _ (inboxInv_step st op h)
  exact hgen ops emptyInbox inboxInv_empty

/-! ## C9 — unread-counter invariants -/

/-- C9: for every user, the unread counter is ≥ 0 after every sequence of
create, mark-one-read, mark-all-read, delete and clear-all operations, and
after any sequence ending in mark-all-read the counter is exactly 0 and every
remaining inbox entry has `read = true`. -/
theorem inbox_counter_invariants :
    (∀ ops : List InboxOp, 0 ≤ (runInbox ops).unread) ∧
    (∀ ops : List InboxOp,
      (runInbox (ops ++ [InboxOp.markAll])).unread = 0 ∧
      ∀ q ∈ (runInbox (ops ++ [InboxOp.markAll])).items, q.2.read = true) := by
  constructor
  · intro ops
    have hinv := inboxInv_run ops
    unfold inboxInv at hinv
    have h0 : (0 : Int) ≤ (numUnread (runInbox ops).items : Int) := Int.ofNat_nonneg _
    omega
  · intro ops
    have hrun : runInbox (ops ++ [InboxOp.markAll]) = markAllAsRead (runInbox ops) := by
      unfold runInbox
      rw [List.foldl_append]
      rfl
    rw [hrun]
    refine ⟨rfl, ?_⟩
    simp only [markAllAsRead]
    exact foldl_zadd_read _ _ (by intro q hq; cases hq)

/-- C9 witness for `inbox_counter_invariants` at concrete operation
sequences, including a double mark-read and a sequence ending in
mark-all-read. -/
theorem inbox_counter_invariants_witness :
    0 ≤ (runInbox [InboxOp.create 5 "a", InboxOp.markRead "a",
      InboxOp.markRead "a", InboxOp.deleteById "a"]).unread ∧
    (runInbox ([InboxOp.create 5 "a", InboxOp.create 6 "b"] ++ [InboxOp.markAll])).unread = 0 ∧
    (((5, { id := "a", read := true, createdAtMs := 5 }) : Nat × StoredNotification).2.read
      = true) :=
  ⟨inbox_counter_invariants.1 [InboxOp.create 5 "a", InboxOp.markRead "a",
      InboxOp.markRead "a", InboxOp.deleteById "a"],
   (inbox_counter_invariants.2 [InboxOp.create 5 "a", InboxOp.create 6 "b"]).1,
   (inbox_counter_invariants.2 [InboxOp.create 5 "a", InboxOp.create 6 "b"]).2
     (5, { id := "a", read := true, createdAtMs := 5 }) (by decide)⟩

/-! ## C8 — inbox capacity, recency, and counter -/

/-- Running a pure create sequence with strictly increasing timestamps from
the fresh state: the stored entries are exactly the most recent
`MAX_NOTIFICATIONS` creates (in rank order) and the counter counts every
create. -/
theorem createSeq_spec (ts : List (Nat × String))
    (hmono : List.Pairwise (fun a b => a.1 < b.1) ts) :
    (runInbox (createOps ts)).items =
      (ts.drop (ts.length - MAX_NOTIFICATIONS)).map mkEntry ∧
    (runInbox (createOps ts)).unread = (ts.length : Int) := by
  induction ts using List.reverseRecOn with
  | nil => exact ⟨rfl, rfl⟩
  | append_singleton ts x ih =>
    rw [List.pairwise_append] at hmono
    obtain ⟨hts, _, hcross⟩ := hmono
    have hlt : ∀ a ∈ ts, a.1 < x.1 := fun a ha => hcross a ha x (List.mem_singleton.mpr rfl)
    obtain ⟨hitems, hunread⟩ := ih hts
    have hrun : runInbox (createOps (ts ++ [x])) =
        createNotification (runInbox (createOps ts)) x.1 x.2 := by
      unfold createOps runInbox
      rw [List.map_append, List.foldl_append]
      rfl
    have hscores : ∀ p ∈ (runInbox (createOps ts)).items, p.1 ≤ x.1 := by
      rw [hitems]
      intro p hp
      obtain ⟨q, hq, rfl⟩ := List.mem_map.mp hp
      exact Nat.le_of_lt (hlt q (List.mem_of_mem_drop hq))
    have hz : zaddInsert (runInbox (createOps ts)).items x.1
        { id := x.2, read := false, createdAtMs := x.1 } =
        (ts.drop (ts.length - MAX_NOTIFICATIONS)).map mkEntry ++ [mkEntry x] := by
      rw [zaddInsert_append _ _ _ hscores, hitems]
      rfl
    have hlen1 : ((ts.drop (ts.length - MAX_NOTIFICATIONS)).map mkEntry ++ [mkEntry x]).length
        = ts.length - (ts.length - MAX_NOTIFICATIONS) + 1 := by
      simp
    rw [hrun]
    simp only [createNotification]
    rw [hz, hlen1, hunread]
    by_cases hn : ts.length < MAX_NOTIFICATIONS
    · rw [if_neg (by simp only [MAX_NOTIFICATIONS] at hn ⊢; omega)]
      refine ⟨?_, ?_⟩
      · have hk : ts.length - MAX_NOTIFICATIONS = 0 := by
          simp only [MAX_NOTIFICATIONS] at hn ⊢
          omega
        have hk2 : (ts ++ [x]).length - MAX_NOTIFICATIONS = 0 := by
          simp only [List.length_append, List.length_singleton, MAX_NOTIFICATIONS] at hn ⊢
          omega
        rw [hk, hk2]
        simp [List.map_append]
      · simp only [List.length_append, List.length_singleton]
        push_cast
        ring
    · rw [if_pos (by simp only [MAX_NOTIFICATIONS] at hn ⊢; omega)]
      refine ⟨?_, ?_⟩
      · have harith : ts.length - (ts.length - MAX_NOTIFICATIONS) + 1 - MAX_NOTIFICATIONS = 1 := by
          simp only [MAX_NOTIFICATIONS] at hn ⊢
          omega
        rw [harith]
        have hlenA : (List.map mkEntry (List.drop (ts.length - MAX_NOTIFICATIONS) ts)).length
            = MAX_NOTIFICATIONS := by
          simp only [List.length_map, List.length_drop, MAX_NOTIFICATIONS] at hn ⊢
          omega
        rw [List.drop_append_of_le_length (by rw [hlenA]; simp only [MAX_NOTIFICATIONS]; omega)]
        rw [← List.map_drop, List.drop_drop]
        have hk3 : (ts ++ [x]).length - MAX_NOTIFICATIONS = (ts.length - MAX_NOTIFICATIONS) + 1 := by
          simp only [List.length_append, List.length_singleton, MAX_NOTIFICATIONS] at hn ⊢
          omega
        rw [hk3, List.drop_append_of_le_length (by simp only [MAX_NOTIFICATIONS] at hn ⊢; omega)]
        simp [List.map_append]
      · simp only [List.length_append, List.length_singleton]
        push_cast
        ring


/-- Lemma: `zaddInsert` always adds exactly one element. -/
theorem length_zaddInsert (l : List (Nat × StoredNotification)) (s : Nat)
    (n : StoredNotification) : (zaddInsert l s n).length = l.length + 1 := by
  induction l with
  | nil => rfl
  | cons p rest ih =>
    obtain ⟨s₀, n₀⟩ := p
    unfold zaddInsert
    split_ifs with hlt
    · simp
    · simp [ih]

/-- Lemma: a single create leaves at most `MAX_NOTIFICATIONS` entries,
whatever the starting state and whatever the timestamp (equal scores
included): the trim removes every entry beyond the cap. -/
theorem createNotification_length_le (st : InboxState) (t : Nat) (id : String) :
    (createNotification st t id).items.length ≤ MAX_NOTIFICATIONS := by
  simp only [createNotification, length_zaddInsert]
  split_ifs with hcap
  · rw [List.length_drop, length_zaddInsert]
    omega
  · rw [length_zaddInsert]
    omega

/-- Lemma: any create sequence, from any state within the cap, stays within
the cap — no assumption on the timestamps. -/
theorem createSeq_length_le (ts : List (Nat × String)) (st : InboxState)
    (hst : st.items.length ≤ MAX_NOTIFICATIONS) :
    ((createOps ts).foldl applyInboxOp st).items.length ≤ MAX_NOTIFICATIONS := by
  induction ts generalizing st with
  | nil => exact hst
  | cons p rest ih =>
    have hstep : (createOps (p :: rest)).foldl applyInboxOp st =
        (createOps rest).foldl applyInboxOp (createNotification st p.1 p.2) := rfl
    rw [hstep]
    exact ih _ (createNotification_length_le st p.1 p.2)

/-- C8: after any sequence of create operations — with no assumption on the
timestamps, equal-millisecond scores included — the inbox holds at most
`INBOX_MAX = 50` entries; when the timestamps are strictly increasing the
surviving entries are exactly the 50 most recent by `createdAt` (in rank
order), and the unread counter is not trimmed by capacity — after `50 + k`
creates it equals `50 + k`. -/
theorem inbox_capacity_recency_counter (ts : List (Nat × String)) :
    (runInbox (createOps ts)).items.length ≤ MAX_NOTIFICATIONS ∧
    (List.Pairwise (fun a b => a.1 < b.1) ts →
      (runInbox (createOps ts)).items.length = min ts.length MAX_NOTIFICATIONS ∧
      (runInbox (createOps ts)).items =
        (ts.drop (ts.length - MAX_NOTIFICATIONS)).map mkEntry ∧
      (runInbox (createOps ts)).unread = (ts.length : Int)) := by
  constructor
  · exact createSeq_length_le ts emptyInbox (by decide)
  · intro hmono
    obtain ⟨h1, h2⟩ := createSeq_spec ts hmono
    refine ⟨?_, h1, h2⟩
    rw [h1]
    simp only [List.length_map, List.length_drop]
    omega

/-- C8 witness for `inbox_capacity_recency_counter`: 51 creates sharing one
timestamp stay within the 50-entry cap, and 51 creates with strictly
increasing timestamps leave exactly 50 entries, the earliest entry absent
(the survivors are creates 2..51), with the counter at 51. -/
theorem inbox_capacity_recency_counter_witness :
    (runInbox (createOps (List.replicate 51 (7, "n")))).items.length ≤ 50 ∧
    (runInbox (createOps ((List.range 51).map (fun i => (i + 1, "n"))))).items.length = 50 ∧
    (runInbox (createOps ((List.range 51).map (fun i => (i + 1, "n"))))).items =
      ((((List.range 51).map (fun i => (i + 1, "n"))).drop 1).map mkEntry) ∧
    (runInbox (createOps ((List.range 51).map (fun i => (i + 1, "n"))))).unread = 51 := by
  have ha := (inbox_capacity_recency_counter (List.replicate 51 (7, "n"))).1
  have h := (inbox_capacity_recency_counter ((List.range 51).map (fun i => (i + 1, "n")))).2
    (by decide)
  refine ⟨ha, ?_, ?_, ?_⟩
  · rw [h.1]
    decide
  · rw [h.2.1]
    decide
  · rw [h.2.2]
    decide

end Realtime
